import Mathlib

/-!
Shallow embedding of `src/useApiWithInterval.ts`: a React hook that polls a
caller-supplied async `apiCall` on a repeating interval, with per-request
`AbortController` cancellation.

Modelling choices:
* The hook's observable state (`data`, `loading`, `error`) together with its
  refs (`intervalRef`, `abortControllerRef`) form one record `HookState`.
* JavaScript's timer runtime is modelled explicitly: `timers` is the list of
  live repeating timers (so "at most one live timer" is a theorem, not a
  consequence of the modelling), and `intervalRef` holds the handle the hook
  remembers.  `setInterval(fetchData, interval)` at time `now` creates a timer
  whose first tick is at `now + interval`.
* `AbortController`s are identified by a counter `nextCid`; the set of
  controllers whose `abort()` has been called is `abortedIds`.  `abort()` on an
  already-aborted controller is a no-op, as in the DOM specification.
* The async function `fetchData` is split at its single suspension point
  (`await apiCall(...)`) into `fetchDataIssue` (the synchronous prefix, which
  also yields the controller id whose signal is passed to `apiCall`) and
  `fetchDataResolve` (the `try`/`catch`/`finally` continuation that runs when
  the promise settles).  The continuation in the source performs its state
  writes unconditionally — there is no "is my controller still the active one"
  check — and the embedding reproduces that faithfully.
* A thrown JavaScript value is either an `Error` instance (name + message) or
  some non-`Error` value (`Thrown.nonError`), matching the source's
  `err instanceof Error && err.name !== "AbortError"` test.
-/

namespace PollingHook

/-- A JavaScript `Error` instance: its `name` and `message`. -/
structure JsError where
  name : String
  message : String
deriving DecidableEq, Repr

/-- A value thrown by the `apiCall` promise: either an `Error` instance or a
non-`Error` value (e.g. a raw string), which the source's
`err instanceof Error` test distinguishes. -/
inductive Thrown where
  | jsError (e : JsError)
  | nonError
deriving DecidableEq, Repr

/-- How one `apiCall` promise settles: fulfilled with a value, or rejected
with a thrown value. -/
inductive Outcome (T : Type) where
  | success (v : T)
  | failure (f : Thrown)
deriving DecidableEq

/-- A live repeating timer in the JavaScript runtime: its handle `tid`, its
period, and the absolute time of its next tick. -/
structure Timer where
  tid : Nat
  period : Nat
  nextFire : Nat
deriving DecidableEq, Repr

/-- The hook's state: the three `useState` cells, the two refs, and the
surrounding runtime (live timers, aborted controllers, fresh-id counters). -/
@[ext]
structure HookState (T : Type) where
  data : Option T
  loading : Bool
  error : Option JsError
  intervalRef : Option Nat
  timers : List Timer
  nextTid : Nat
  abortRef : Option Nat
  abortedIds : List Nat
  nextCid : Nat
deriving DecidableEq

variable {T : Type}

/-- The `useState` initial values (`null`, `false`, `null`) and empty refs. -/
def initialState (T : Type) : HookState T :=
  { data := none, loading := false, error := none,
    intervalRef := none, timers := [], nextTid := 0,
    abortRef := none, abortedIds := [], nextCid := 0 }

/-- Model of `controller.abort()`: records `cid` as aborted; a no-op if that controller
was already aborted. -/
def abortCall (aborted : List Nat) (cid : Nat) : List Nat :=
  if cid ∈ aborted then aborted else cid :: aborted

/-- Synchronous prefix of `fetchData`, up to and including the call
`apiCall(abortControllerRef.current.signal)`:
abort the previous controller if present, store a fresh controller,
`setLoading(true)`, `setError(null)`.  Returns the new state together with the
id of the controller whose signal is passed to `apiCall`. -/
def fetchDataIssue (s : HookState T) : HookState T × Nat :=
  let s1 := match s.abortRef with
    | some cid => { s with abortedIds := abortCall s.abortedIds cid }
    | none => s
  let cid := s1.nextCid
  ({ s1 with abortRef := some cid, nextCid := cid + 1,
             loading := true, error := none }, cid)

/-- Continuation of `fetchData` once the `apiCall` promise settles:
on fulfilment `setData(result); setError(null)`; on rejection, if the thrown
value is an `Error` whose name is not `"AbortError"` then
`setError(err); setData(null)`, otherwise nothing; in `finally`,
`setLoading(false)`.  As in the source, none of these writes checks whether
this request's controller is still the active one. -/
def fetchDataResolve (s : HookState T) (o : Outcome T) : HookState T :=
  let s1 := match o with
    | .success v => { s with data := some v, error := none }
    | .failure (.jsError e) =>
        if e.name ≠ "AbortError" then { s with error := some e, data := none }
        else s
    | .failure .nonError => s
  { s1 with loading := false }

/-- Model of `clearInterval(h)`: removes the timer with handle `h` from the runtime
(a no-op if no such live timer exists). -/
def clearIntervalCall (s : HookState T) (h : Nat) : HookState T :=
  { s with timers := s.timers.filter (fun tm => tm.tid ≠ h) }

/-- The hook's `startInterval` at absolute time `now`: clear the remembered timer if any,
then `setInterval(fetchData, interval)` and remember the fresh handle. -/
def startInterval (s : HookState T) (interval now : Nat) : HookState T :=
  let s1 := match s.intervalRef with
    | some h => clearIntervalCall s h
    | none => s
  { s1 with timers := ⟨s1.nextTid, interval, now + interval⟩ :: s1.timers,
            nextTid := s1.nextTid + 1,
            intervalRef := some s1.nextTid }

/-- The hook's `refetch` at absolute time `now`: `fetchData()` then `startInterval()`
(the resolution of the issued request is a later, separate event). -/
def refetch (s : HookState T) (interval now : Nat) : HookState T :=
  startInterval (fetchDataIssue s).1 interval now

/-- One tick of the timer with handle `h`: the runtime advances that timer's
`nextFire` by its period and invokes `fetchData`. -/
def intervalTick (s : HookState T) (h : Nat) : HookState T × Nat :=
  fetchDataIssue
    { s with timers := s.timers.map (fun tm =>
        if tm.tid = h then { tm with nextFire := tm.nextFire + tm.period }
        else tm) }

/-- The `useEffect` body on mount at absolute time `now`: `fetchData()` when
`immediate`, then `startInterval()`. -/
def useEffectMount (s : HookState T) (immediate : Bool) (interval now : Nat) :
    HookState T :=
  startInterval (if immediate then (fetchDataIssue s).1 else s) interval now

/-- The `useEffect` cleanup (teardown / `stop()`): `clearInterval` on the
remembered handle if any, then `abort()` on the remembered controller if any.
Neither ref is nulled out, as in the source. -/
def useEffectCleanup (s : HookState T) : HookState T :=
  let s1 := match s.intervalRef with
    | some h => clearIntervalCall s h
    | none => s
  match s1.abortRef with
  | some cid => { s1 with abortedIds := abortCall s1.abortedIds cid }
  | none => s1

/-- Every live timer's handle is the one remembered in `intervalRef`. -/
def timersOwned (s : HookState T) : Prop :=
  ∀ tm ∈ s.timers, s.intervalRef = some tm.tid

/-- Some live timer is due at or before time `now`, i.e. a tick (and hence a
request issuance) can still fire. -/
def tickEnabled (s : HookState T) (now : Nat) : Prop :=
  ∃ tm ∈ s.timers, tm.nextFire ≤ now

/-- Every controller id ever handed out is below the freshness counter. -/
def cidsFresh (s : HookState T) : Prop :=
  (∀ c ∈ s.abortedIds, c < s.nextCid) ∧
  (∀ c, s.abortRef = some c → c < s.nextCid)

/-!
Theorems.  Request #0 is issued by `fetchDataIssue` on the initial state and
receives controller id 0; issuing request #1 on the resulting state aborts
controller 0, so request #0 is then the superseded one.
-/

/-- C1.  The claim says a superseded request's resolution performs no
`data`/`error` mutation because state writes are guarded by an
"am I still the active token" check.  The code has no such guard: after
request #0 (controller 0) is superseded by request #1 (controller 1 active,
controller 0 aborted), request #0's successful resolution still runs
`setData(result)` — `data` goes from `none` to `some 7`, overwriting the
active request's territory.  This evaluates the code at the failing input. -/
theorem superseded_success_mutates_data :
    (0 : Nat) ∈ ((fetchDataIssue (fetchDataIssue (initialState Nat)).1).1).abortedIds ∧
    ((fetchDataIssue (fetchDataIssue (initialState Nat)).1).1).abortRef = some 1 ∧
    ((fetchDataIssue (fetchDataIssue (initialState Nat)).1).1).data = none ∧
    (fetchDataResolve (fetchDataIssue (fetchDataIssue (initialState Nat)).1).1
      (Outcome.success 7)).data = some 7 := by
  decide

/-- C2.  The claim says `loading` is cleared on resolution only if the
resolving request's token is still the active one.  The code's `finally`
block runs `setLoading(false)` unconditionally: after request #0 is
superseded by request #1 (still outstanding, `loading = true`,
active controller 1), request #0's `AbortError` rejection still clears
`loading` to `false` even though the active request has not completed.
This evaluates the code at the failing input. -/
theorem superseded_abort_clears_loading :
    ((fetchDataIssue (fetchDataIssue (initialState Nat)).1).1).loading = true ∧
    ((fetchDataIssue (fetchDataIssue (initialState Nat)).1).1).abortRef = some 1 ∧
    (fetchDataResolve (fetchDataIssue (fetchDataIssue (initialState Nat)).1).1
      (Outcome.failure (Thrown.jsError ⟨"AbortError", "canceled"⟩))).loading
      = false := by
  decide

/-- C3.  A request that rejects with an `Error` named `"AbortError"` takes no
success or error state action: `error` is not set and `data` is not modified
by that resolution. -/
theorem abortError_swallowed (s : HookState Nat) (e : JsError)
    (h : e.name = "AbortError") :
    (fetchDataResolve s (Outcome.failure (Thrown.jsError e))).error = s.error ∧
    (fetchDataResolve s (Outcome.failure (Thrown.jsError e))).data = s.data := by
  simp [fetchDataResolve, h]

theorem abortError_swallowed_witness :
    (fetchDataResolve (initialState Nat)
      (Outcome.failure (Thrown.jsError ⟨"AbortError", "x"⟩))).error
      = (initialState Nat).error ∧
    (fetchDataResolve (initialState Nat)
      (Outcome.failure (Thrown.jsError ⟨"AbortError", "x"⟩))).data
      = (initialState Nat).data :=
  abortError_swallowed (initialState Nat) ⟨"AbortError", "x"⟩ rfl

/-- C4.  A request that rejects with an `Error` not named `"AbortError"`
leaves, after its resolution, `error` equal to that failure, `data` reset to
`none` (even if a previous success had set it), and `loading` false. -/
theorem operationFailure_surfaced (s : HookState Nat) (e : JsError)
    (h : e.name ≠ "AbortError") :
    (fetchDataResolve s (Outcome.failure (Thrown.jsError e))).error = some e ∧
    (fetchDataResolve s (Outcome.failure (Thrown.jsError e))).data = none ∧
    (fetchDataResolve s (Outcome.failure (Thrown.jsError e))).loading = false := by
  simp [fetchDataResolve, h]

theorem operationFailure_surfaced_witness :
    (fetchDataResolve (fetchDataResolve (initialState Nat) (Outcome.success 5))
      (Outcome.failure (Thrown.jsError ⟨"TypeError", "x"⟩))).error
      = some ⟨"TypeError", "x"⟩ ∧
    (fetchDataResolve (fetchDataResolve (initialState Nat) (Outcome.success 5))
      (Outcome.failure (Thrown.jsError ⟨"TypeError", "x"⟩))).data = none ∧
    (fetchDataResolve (fetchDataResolve (initialState Nat) (Outcome.success 5))
      (Outcome.failure (Thrown.jsError ⟨"TypeError", "x"⟩))).loading = false :=
  operationFailure_surfaced
    (fetchDataResolve (initialState Nat) (Outcome.success 5))
    ⟨"TypeError", "x"⟩ (by decide)

/-- C5.  A request that rejects with a non-`Error` value is treated as not
reportable: `error` is not set, it is not treated as a cancellation, `data`
is not cleared, and `loading` is still cleared to false. -/
theorem nonError_dropped (s : HookState Nat) :
    (fetchDataResolve s (Outcome.failure Thrown.nonError)).error = s.error ∧
    (fetchDataResolve s (Outcome.failure Thrown.nonError)).data = s.data ∧
    (fetchDataResolve s (Outcome.failure Thrown.nonError)).loading = false := by
  simp [fetchDataResolve]

/-- Membership after an `abort()` call: the aborted set gains exactly `c`. -/
theorem mem_abortCall {l : List Nat} {c x : Nat} :
    x ∈ abortCall l c ↔ x ∈ l ∨ x = c := by
  unfold abortCall
  split
  · constructor
    · exact fun hx => Or.inl hx
    · rintro (hx | rfl)
      · exact hx
      · assumption
  · constructor
    · intro hx
      rcases List.mem_cons.mp hx with rfl | hx
      · exact Or.inr rfl
      · exact Or.inl hx
    · rintro (hx | rfl)
      · exact List.mem_cons_of_mem _ hx
      · exact List.mem_cons_self _ _

/-- C6.  Request issuance first signals `abort()` on the active controller if
one exists, installs a freshly created controller (never previously aborted)
as the single active one, sets `loading := true` and clears `error`, and the
controller id handed to `apiCall` is exactly that fresh active one. -/
theorem issuance_preamble {T : Type} (s : HookState T) (hf : cidsFresh s) :
    (fetchDataIssue s).2 = s.nextCid ∧
    (fetchDataIssue s).1.abortRef = some s.nextCid ∧
    (∀ c, s.abortRef = some c → c ∈ (fetchDataIssue s).1.abortedIds) ∧
    s.nextCid ∉ (fetchDataIssue s).1.abortedIds ∧
    (fetchDataIssue s).1.loading = true ∧
    (fetchDataIssue s).1.error = none := by
  obtain ⟨h1, h2⟩ := hf
  cases hr : s.abortRef with
  | none =>
      simp only [fetchDataIssue, hr]
      refine ⟨trivial, trivial, ?_, ?_, trivial, trivial⟩
      · intro c hc
        exact Option.noConfusion hc
      · intro hmem
        exact absurd (h1 _ hmem) (lt_irrefl _)
  | some cid =>
      simp only [fetchDataIssue, hr]
      refine ⟨trivial, trivial, ?_, ?_, trivial, trivial⟩
      · intro c hc
        obtain rfl : cid = c := Option.some.inj hc
        exact mem_abortCall.mpr (Or.inr rfl)
      · intro hmem
        rcases mem_abortCall.mp hmem with hmem | hmem
        · exact absurd (h1 _ hmem) (lt_irrefl _)
        · exact absurd (hmem ▸ h2 _ hr) (lt_irrefl _)

theorem issuance_preamble_witness :
    cidsFresh (fetchDataIssue (initialState Nat)).1 ∧
    ((fetchDataIssue (fetchDataIssue (initialState Nat)).1).2
        = (fetchDataIssue (initialState Nat)).1.nextCid ∧
      (fetchDataIssue (fetchDataIssue (initialState Nat)).1).1.abortRef
        = some (fetchDataIssue (initialState Nat)).1.nextCid ∧
      (∀ c, (fetchDataIssue (initialState Nat)).1.abortRef = some c →
        c ∈ (fetchDataIssue (fetchDataIssue (initialState Nat)).1).1.abortedIds) ∧
      (fetchDataIssue (initialState Nat)).1.nextCid
        ∉ (fetchDataIssue (fetchDataIssue (initialState Nat)).1).1.abortedIds ∧
      (fetchDataIssue (fetchDataIssue (initialState Nat)).1).1.loading = true ∧
      (fetchDataIssue (fetchDataIssue (initialState Nat)).1).1.error = none) := by
  have hf : cidsFresh (fetchDataIssue (initialState Nat)).1 := by
    constructor
    · intro c hc
      exact absurd hc (List.not_mem_nil c)
    · intro c hc
      have h0 : c = 0 := (Option.some.inj hc).symm
      subst h0
      decide
  exact ⟨hf, issuance_preamble (fetchDataIssue (initialState Nat)).1 hf⟩

/-- C9.  Issuing a request (directly or via `refetch`) never mutates `data`;
`data` changes only on resolution: to the result on success, to `none` on a
non-`AbortError` `Error` rejection, and is untouched otherwise. -/
theorem data_untouched_by_issuance {T : Type} (s : HookState T) (o : Outcome T)
    (interval now : Nat) :
    (fetchDataIssue s).1.data = s.data ∧
    (refetch s interval now).data = s.data ∧
    (fetchDataResolve s o).data = (match o with
      | .success v => some v
      | .failure (.jsError e) =>
          if e.name ≠ "AbortError" then none else s.data
      | .failure .nonError => s.data) := by
  refine ⟨?_, ?_, ?_⟩
  · cases hr : s.abortRef <;> simp [fetchDataIssue, hr]
  · cases hr : s.abortRef <;> cases hi : s.intervalRef <;>
      simp [refetch, startInterval, clearIntervalCall, fetchDataIssue, hr, hi]
  · rcases o with v | f
    · simp [fetchDataResolve]
    · rcases f with e | _
      · by_cases h : e.name = "AbortError" <;> simp [fetchDataResolve, h]
      · simp [fetchDataResolve]

/-- C10.  Immediately after creation the observable state is `data = none`,
`loading = false`, `error = none`; with `immediate = false` the mount issues
no request (no active controller), so this state persists until the first
timer tick. -/
theorem initial_observable_state {T : Type} (interval now : Nat) :
    (initialState T).data = none ∧
    (initialState T).loading = false ∧
    (initialState T).error = none ∧
    (useEffectMount (initialState T) false interval now).data = none ∧
    (useEffectMount (initialState T) false interval now).loading = false ∧
    (useEffectMount (initialState T) false interval now).error = none ∧
    (useEffectMount (initialState T) false interval now).abortRef = none := by
  simp [initialState, useEffectMount, startInterval]

/-- Issuance touches neither the timer runtime nor the remembered
timer handle. -/
theorem fetchDataIssue_timer_frame (s : HookState T) :
    (fetchDataIssue s).1.timers = s.timers ∧
    (fetchDataIssue s).1.intervalRef = s.intervalRef ∧
    (fetchDataIssue s).1.nextTid = s.nextTid := by
  cases hr : s.abortRef <;> simp [fetchDataIssue, hr]

/-- When every live timer is the remembered one, `startInterval` leaves
exactly one live timer: the fresh one, firing first at `now + interval`, and
remembers its handle. -/
theorem startInterval_single_timer (s : HookState T) (hw : timersOwned s)
    (interval now : Nat) :
    (startInterval s interval now).timers
      = [⟨s.nextTid, interval, now + interval⟩] ∧
    (startInterval s interval now).intervalRef = some s.nextTid := by
  cases hi : s.intervalRef with
  | none =>
      have ht : s.timers = [] := by
        rcases h : s.timers with _ | ⟨a, l⟩
        · rfl
        · have := hw a (h ▸ List.mem_cons_self a l)
          rw [hi] at this
          exact Option.noConfusion this
      simp [startInterval, hi, ht]
  | some h0 =>
      have ht : s.timers.filter (fun tm => tm.tid ≠ h0) = [] := by
        apply List.filter_eq_nil_iff.mpr
        intro tm hm
        have := hw tm hm
        rw [hi] at this
        have htid : tm.tid = h0 := (Option.some.inj this).symm
        simp [htid]
      simp [startInterval, hi, clearIntervalCall, ht]
      intro a ha
      have := hw a ha
      rw [hi] at this
      exact (Option.some.inj this).symm

/-- C7.  `refetch` at time `now` issues an immediate fetch (`loading` set,
the in-flight request's controller aborted) and rearms the repeating timer:
afterwards exactly one live timer exists, its handle is the remembered one,
and its next tick is at `now + interval` rather than on the old schedule. -/
theorem refetch_restarts_period {T : Type} (s : HookState T)
    (hw : timersOwned s) (interval now : Nat) :
    (∃ h, (refetch s interval now).intervalRef = some h ∧
      (refetch s interval now).timers = [⟨h, interval, now + interval⟩]) ∧
    (refetch s interval now).loading = true ∧
    (∀ c, s.abortRef = some c → c ∈ (refetch s interval now).abortedIds) := by
  obtain ⟨htm, hir, hnt⟩ := fetchDataIssue_timer_frame s
  have hw1 : timersOwned (fetchDataIssue s).1 := by
    intro tm hm
    rw [htm] at hm
    rw [hir]
    exact hw tm hm
  obtain ⟨h1, h2⟩ := startInterval_single_timer (fetchDataIssue s).1 hw1 interval now
  refine ⟨⟨(fetchDataIssue s).1.nextTid, h2, h1⟩, ?_, ?_⟩
  · show (startInterval (fetchDataIssue s).1 interval now).loading = true
    have hld : (fetchDataIssue s).1.loading = true := by
      cases hr : s.abortRef <;> simp [fetchDataIssue, hr]
    cases hi : (fetchDataIssue s).1.intervalRef <;>
      simp [startInterval, hi, clearIntervalCall, hld]
  · intro c hc
    have hab : c ∈ (fetchDataIssue s).1.abortedIds := by
      simp only [fetchDataIssue, hc]
      exact mem_abortCall.mpr (Or.inr rfl)
    show c ∈ (startInterval (fetchDataIssue s).1 interval now).abortedIds
    cases hi : (fetchDataIssue s).1.intervalRef <;>
      simpa [startInterval, hi, clearIntervalCall] using hab

theorem refetch_restarts_period_witness :
    timersOwned (initialState Nat) ∧
    ((∃ h, (refetch (initialState Nat) 1000 42).intervalRef = some h ∧
        (refetch (initialState Nat) 1000 42).timers = [⟨h, 1000, 42 + 1000⟩]) ∧
      (refetch (initialState Nat) 1000 42).loading = true ∧
      (∀ c, (initialState Nat).abortRef = some c →
        c ∈ (refetch (initialState Nat) 1000 42).abortedIds)) := by
  have hw : timersOwned (initialState Nat) := by
    intro tm hm
    exact absurd hm (List.not_mem_nil tm)
  exact ⟨hw, refetch_restarts_period (initialState Nat) hw 1000 42⟩

/-- If no timer handle is remembered, ownership forces the runtime to hold no
live timer. -/
theorem timersOwned_none_nil (s : HookState T) (hw : timersOwned s)
    (hi : s.intervalRef = none) : s.timers = [] := by
  rcases h : s.timers with _ | ⟨a, l⟩
  · rfl
  · have := hw a (h ▸ List.mem_cons_self a l)
    rw [hi] at this
    exact Option.noConfusion this

/-- Clearing the remembered handle removes every live timer, by ownership. -/
theorem timersOwned_filter_nil (s : HookState T) (hw : timersOwned s)
    (h0 : Nat) (hi : s.intervalRef = some h0) :
    s.timers.filter (fun tm => tm.tid ≠ h0) = [] := by
  apply List.filter_eq_nil_iff.mpr
  intro tm hm
  have := hw tm hm
  rw [hi] at this
  have htid : tm.tid = h0 := (Option.some.inj this).symm
  simp [htid]

/-- The cleanup touches only `timers` and `abortedIds`; in particular neither
ref is nulled out and the observable `data`/`loading`/`error` are left alone. -/
theorem useEffectCleanup_frame (s : HookState T) :
    (useEffectCleanup s).data = s.data ∧
    (useEffectCleanup s).loading = s.loading ∧
    (useEffectCleanup s).error = s.error ∧
    (useEffectCleanup s).intervalRef = s.intervalRef ∧
    (useEffectCleanup s).nextTid = s.nextTid ∧
    (useEffectCleanup s).abortRef = s.abortRef ∧
    (useEffectCleanup s).nextCid = s.nextCid := by
  cases hi : s.intervalRef <;> cases hr : s.abortRef <;>
    simp [useEffectCleanup, clearIntervalCall, hi, hr]

/-- After cleanup no live timer remains. -/
theorem useEffectCleanup_timers_nil (s : HookState T) (hw : timersOwned s) :
    (useEffectCleanup s).timers = [] := by
  cases hi : s.intervalRef with
  | none =>
      have ht := timersOwned_none_nil s hw hi
      cases hr : s.abortRef <;>
        simp [useEffectCleanup, clearIntervalCall, hi, hr, ht]
  | some h0 =>
      have ht := timersOwned_filter_nil s hw h0 hi
      cases hr : s.abortRef <;>
        simp [useEffectCleanup, clearIntervalCall, hi, hr, ht]
      all_goals
        (intro a ha;
         have h2 := hw a ha;
         rw [hi] at h2;
         exact (Option.some.inj h2).symm)

/-- Cleanup signals `abort()` on the remembered controller. -/
theorem useEffectCleanup_aborts (s : HookState T) :
    ∀ c, s.abortRef = some c → c ∈ (useEffectCleanup s).abortedIds := by
  intro c hc
  cases hi : s.intervalRef <;>
    simp only [useEffectCleanup, clearIntervalCall, hi, hc] <;>
    exact mem_abortCall.mpr (Or.inr rfl)

/-- When the runtime already holds no live timer, cleanup leaves it empty. -/
theorem useEffectCleanup_timers_of_nil (s : HookState T) (h : s.timers = []) :
    (useEffectCleanup s).timers = [] := by
  cases hi : s.intervalRef <;> cases hr : s.abortRef <;>
    simp [useEffectCleanup, clearIntervalCall, hi, hr, h]

/-- When the remembered controller is already aborted, cleanup adds nothing. -/
theorem useEffectCleanup_abortedIds_of_mem (s : HookState T)
    (h : ∀ c, s.abortRef = some c → c ∈ s.abortedIds) :
    (useEffectCleanup s).abortedIds = s.abortedIds := by
  cases hi : s.intervalRef <;> cases hr : s.abortRef <;>
    simp only [useEffectCleanup, clearIntervalCall, hi, hr]
  case none.some cid =>
    simp [abortCall, h cid hr]
  case some.some h0 cid =>
    simp [abortCall, h cid hr]

/-- C8.  `stop()` (the `useEffect` cleanup) disarms the timer — no live timer
remains, so no tick can fire at any later time — and signals `abort()` on the
in-flight request's controller (cooperatively: the fetch itself is not
terminated, its resolution is a separate later event); and a second `stop()`
is a no-op on the whole controller state. -/
theorem stop_teardown {T : Type} (s : HookState T) (hw : timersOwned s) :
    (useEffectCleanup s).timers = [] ∧
    (∀ now, ¬ tickEnabled (useEffectCleanup s) now) ∧
    (∀ c, s.abortRef = some c → c ∈ (useEffectCleanup s).abortedIds) ∧
    useEffectCleanup (useEffectCleanup s) = useEffectCleanup s := by
  have hnil := useEffectCleanup_timers_nil s hw
  obtain ⟨hd, hl, he, hi, hn, ha, hc⟩ := useEffectCleanup_frame (useEffectCleanup s)
  refine ⟨hnil, ?_, useEffectCleanup_aborts s, ?_⟩
  · rintro now ⟨tm, hm, -⟩
    rw [hnil] at hm
    exact absurd hm (List.not_mem_nil tm)
  · have hmem : ∀ c, (useEffectCleanup s).abortRef = some c →
        c ∈ (useEffectCleanup s).abortedIds := by
      intro c hcc
      apply useEffectCleanup_aborts s c
      rw [← (useEffectCleanup_frame s).2.2.2.2.2.1]
      exact hcc
    ext
    · rw [hd]
    · rw [hl]
    · rw [he]
    · rw [hi]
    · rw [useEffectCleanup_timers_of_nil (useEffectCleanup s) hnil, hnil]
    · rw [hn]
    · rw [ha]
    · rw [useEffectCleanup_abortedIds_of_mem (useEffectCleanup s) hmem]
    · rw [hc]

theorem stop_teardown_witness :
    timersOwned (useEffectMount (initialState Nat) true 5000 0) ∧
    ((useEffectCleanup (useEffectMount (initialState Nat) true 5000 0)).timers
        = [] ∧
      (∀ now, ¬ tickEnabled
        (useEffectCleanup (useEffectMount (initialState Nat) true 5000 0)) now) ∧
      (∀ c, (useEffectMount (initialState Nat) true 5000 0).abortRef = some c →
        c ∈ (useEffectCleanup
          (useEffectMount (initialState Nat) true 5000 0)).abortedIds) ∧
      useEffectCleanup (useEffectCleanup
          (useEffectMount (initialState Nat) true 5000 0))
        = useEffectCleanup (useEffectMount (initialState Nat) true 5000 0)) := by
  have hw : timersOwned (useEffectMount (initialState Nat) true 5000 0) := by
    intro tm hm
    have : tm = ⟨0, 5000, 0 + 5000⟩ := by
      rcases List.mem_singleton.mp hm with rfl
      rfl
    subst this
    rfl
  exact ⟨hw, stop_teardown (useEffectMount (initialState Nat) true 5000 0) hw⟩

end PollingHook
